import Mathlib

/-!
Verification of the kq job-queue core (`kq/queue.py`, `kq/utils.py`):
the enqueue-specification protocol that normalizes a raw function call or a
partially-specified job record into a fully-populated job, resolves the
precedence between per-job values and spec-bound defaults, and hands the
job to the transport.

The embedding is shallow: dynamically typed Python values are an inductive
`PyVal`; `assert` statements become an `Except String` error monad; the two
external effect sources inside `enqueue` (`time.time()` and `uuid.uuid4()`)
become explicit parameters; the opaque serializer and the transport
`producer.send(...)` call are recorded symbolically in a `SendCall` value
(what the serializer was applied to, and with which arguments the transport
was invoked), since the serializer output is opaque bytes.
-/

/-- A dynamically typed Python value, at the granularity the kq core
inspects values: `isinstance` checks on str / int / float / bytes /
list / tuple / dict, `callable`, identity with `None`, and truthiness.
Floats carry a rational payload: the core never performs float
arithmetic, it only stores timeouts and compares them with `0`, which
is exact on every representable float. Callables are opaque ids;
other class instances (`logging.Logger`, `KafkaProducer`) are
represented by their class name. -/
inductive PyVal where
  | none
  | str (s : String)
  | int (n : Int)
  | float (q : ℚ)
  | bytes (b : List Nat)
  | func (id : Nat)
  | list (xs : List PyVal)
  | tuple (xs : List PyVal)
  | dict (xs : List (String × PyVal))
  | pyobj (cls : String)

/-- `obj is None`. -/
def PyVal.isNone : PyVal → Bool
  | .none => true
  | _ => false

/-- Python truthiness for the values the core tests with `if`/`or`:
`None`, empty strings/bytes/containers and zero are falsy, everything
else (in particular any function object or class instance) is truthy. -/
def pyTruthy : PyVal → Bool
  | .none => false
  | .str s => s ≠ ""
  | .int n => n ≠ 0
  | .float q => q ≠ 0
  | .bytes b => b ≠ []
  | .list xs => !xs.isEmpty
  | .tuple xs => !xs.isEmpty
  | .dict xs => !xs.isEmpty
  | .func _ => true
  | .pyobj _ => true

/-- Python `a or b`: `a` if truthy, else `b`. -/
def pyOr (a b : PyVal) : PyVal :=
  if pyTruthy a then a else b

/-- `callable(obj)` at the granularity of the model: function objects. -/
def pyCallable : PyVal → Bool
  | .func _ => true
  | _ => false

/-- `kq.utils.is_str`: `isinstance(obj, str)`. -/
def is_str : PyVal → Bool
  | .str _ => true
  | _ => false

/-- `kq.utils.is_number`: `isinstance(obj, (int, float))`. -/
def is_number : PyVal → Bool
  | .int _ => true
  | .float _ => true
  | _ => false

/-- `kq.utils.is_dict`: `isinstance(obj, dict)`. -/
def is_dict : PyVal → Bool
  | .dict _ => true
  | _ => false

/-- `kq.utils.is_iter`: `isinstance(obj, (list, tuple))`. -/
def is_iter : PyVal → Bool
  | .list _ => true
  | .tuple _ => true
  | _ => false

/-- `kq.utils.is_none_or_bytes`. -/
def is_none_or_bytes : PyVal → Bool
  | .none => true
  | .bytes _ => true
  | _ => false

/-- `kq.utils.is_none_or_int`. -/
def is_none_or_int : PyVal → Bool
  | .none => true
  | .int _ => true
  | _ => false

/-- `kq.utils.is_none_or_func`: `obj is None or callable(obj)`. -/
def is_none_or_func (v : PyVal) : Bool :=
  v.isNone || pyCallable v

/-- `kq.utils.is_none_or_logger`: `obj is None or isinstance(obj, logging.Logger)`. -/
def is_none_or_logger : PyVal → Bool
  | .none => true
  | .pyobj cls => cls == "Logger"
  | _ => false

/-- `timeout >= 0`, evaluated only after `is_number timeout` holds. -/
def pyGe0 : PyVal → Bool
  | .int n => 0 ≤ n
  | .float q => 0 ≤ q
  | _ => false

/-- `True` exactly when the computation raised (an `assert` failed), in
which case no result value — and in particular no transport call — was
produced. -/
def raises : Except String α → Bool
  | .error _ => true
  | .ok _ => false

/-- Modelled from the spec: the `Job` record of `kq.job` (imported by
`kq/queue.py` but not part of this slice) is an immutable value object
with fields `id, timestamp, topic, func, args, kwargs, timeout, key,
partition`, all optional (absent = `None`); it performs no validation of
its own. Each field holds an arbitrary dynamically typed value. -/
structure Job where
  id : PyVal := .none
  timestamp : PyVal := .none
  topic : PyVal := .none
  func : PyVal := .none
  args : PyVal := .none
  kwargs : PyVal := .none
  timeout : PyVal := .none
  key : PyVal := .none
  partition : PyVal := .none

/-- The first argument of `enqueue`: either a `Job` instance
(`isinstance(obj, Job)` branch) or any other Python value. -/
inductive EnqueueArg where
  | job (j : Job)
  | raw (v : PyVal)

/-- Symbolic record of the single `producer.send(...)` transport call
performed by a successful enqueue: the topic, the value the serializer
was applied to (the canonical job), the value the serializer was applied
to for the wire key (or `Option.none` when the send carries no key),
the partition, and the timestamp. -/
structure SendCall where
  topic : PyVal
  valueSerializedFrom : Job
  keySerializedFrom : Option PyVal
  partition : PyVal
  timestamp_ms : Int

/-- `EnqueueSpec`: the bound configuration (`kq/queue.py`,
`EnqueueSpec.__slots__`). -/
structure EnqueueSpec where
  topic : PyVal
  producer : PyVal
  serializer : PyVal
  logger : PyVal
  timeout : PyVal
  key : PyVal
  partition : PyVal

/-- `EnqueueSpec.__init__`: validates timeout/key/partition (each failed
`assert` raises before any field is stored), then stores every argument. -/
def EnqueueSpec.init (topic producer serializer logger timeout key partition : PyVal) :
    Except String EnqueueSpec :=
  if !is_number timeout then .error "timeout must be an int or float"
  else if !is_none_or_bytes key then .error "key must be a bytes"
  else if !is_none_or_int partition then .error "partition must be an int"
  else .ok { topic := topic, producer := producer, serializer := serializer,
             logger := logger, timeout := timeout, key := key, partition := partition }

/-- The tail of `EnqueueSpec.enqueue` after the branch: construct the
canonical `Job` (with `topic` and `timestamp` forced from the spec and
the captured time), then the transport call
`producer.send(topic, value=serializer(job),
key=serializer(key) if key else None, partition=partition,
timestamp_ms=timestamp)`. The `self._logger.info(...)` call in between
is a pure logging side effect with no influence on the result and is
not modelled. -/
def finishEnqueue (spec : EnqueueSpec) (timestamp : Int)
    (job_id func args' kwargs' timeout key partition : PyVal) :
    Job × SendCall :=
  let job : Job :=
    { id := job_id, timestamp := .int timestamp, topic := spec.topic,
      func := func, args := args', kwargs := kwargs',
      timeout := timeout, key := key, partition := partition }
  let send : SendCall :=
    { topic := spec.topic,
      valueSerializedFrom := job,
      keySerializedFrom := if pyTruthy key then some key else Option.none,
      partition := partition,
      timestamp_ms := timestamp }
  (job, send)

/-- The local variable `job_id` of the Job branch:
`uuid.uuid4().hex if obj.id is None else obj.id`. -/
def resolveId (j : Job) (freshId : String) : PyVal :=
  if j.id.isNone then PyVal.str freshId else j.id

/-- The local variable `args` of the Job branch:
`tuple() if obj.args is None else obj.args`. -/
def resolveArgs (j : Job) : PyVal :=
  if j.args.isNone then PyVal.tuple [] else j.args

/-- The local variable `kwargs` of the Job branch:
`{} if obj.kwargs is None else obj.kwargs`. -/
def resolveKwargs (j : Job) : PyVal :=
  if j.kwargs.isNone then PyVal.dict [] else j.kwargs

/-- The local variable `timeout` of the Job branch:
`self._timeout if obj.timeout is None else obj.timeout`. -/
def resolveTimeout (spec : EnqueueSpec) (j : Job) : PyVal :=
  if j.timeout.isNone then spec.timeout else j.timeout

/-- The local variable `key` of the Job branch:
`self._key if obj.key is None else obj.key`. -/
def resolveKey (spec : EnqueueSpec) (j : Job) : PyVal :=
  if j.key.isNone then spec.key else j.key

/-- The local variable `partition` of the Job branch:
`self._part if obj.partition is None else obj.partition`. -/
def resolvePartition (spec : EnqueueSpec) (j : Job) : PyVal :=
  if j.partition.isNone then spec.partition else j.partition

/-- The seven re-validation `assert`s of the Job branch, applied to the
resolved local variables, followed by the common tail. Each failed
`assert` raises in source order. -/
def validateAndFinish (spec : EnqueueSpec) (timestamp : Int)
    (job_id func args' kwargs' timeout key partition : PyVal) :
    Except String (Job × SendCall) :=
  if !is_str job_id then .error "Job.id must be a str"
  else if !pyCallable func then .error "Job.func must be a callable"
  else if !is_iter args' then .error "Job.args must be a list or tuple"
  else if !is_dict kwargs' then .error "Job.kwargs must be a dict"
  else if !is_number timeout then .error "Job.timeout must be an int or float"
  else if !is_none_or_bytes key then .error "Job.key must be a bytes"
  else if !is_none_or_int partition then .error "Job.partition must be an int"
  else .ok (finishEnqueue spec timestamp job_id func args' kwargs'
              timeout key partition)

/-- `EnqueueSpec.enqueue(obj, *args, **kwargs)`. External inputs are
explicit: `timestampNow` is `int(time.time() * 1000)` captured on entry,
`freshId` is `uuid.uuid4().hex`. Returns the canonical job together with
the symbolic transport call; each failed `assert` raises (`.error`) in
source order, and then no transport call exists. -/
def EnqueueSpec.enqueue (spec : EnqueueSpec) (obj : EnqueueArg)
    (args : List PyVal) (kwargs : List (String × PyVal))
    (timestampNow : Int) (freshId : String) :
    Except String (Job × SendCall) :=
  let timestamp : Int := timestampNow
  match obj with
  | .job j =>
      validateAndFinish spec timestamp (resolveId j freshId) j.func
        (resolveArgs j) (resolveKwargs j) (resolveTimeout spec j)
        (resolveKey spec j) (resolvePartition spec j)
  | .raw v =>
      if !pyCallable v then .error "first argument must be a callable"
      else .ok (finishEnqueue spec timestamp (PyVal.str freshId) v
                  (PyVal.tuple args) (PyVal.dict kwargs)
                  spec.timeout spec.key spec.partition)

/-- `dill.dumps`, the default serializer: an opaque function object. -/
def dillDumps : PyVal := .func 0

/-- `logging.getLogger('kq.queue')`, the default logger. -/
def defaultLogger : PyVal := .pyobj "Logger"

/-- `Queue`: the user-facing handle (`kq/queue.py`). `_hosts` (read from
`producer.config`, used only by `__repr__`) is not modelled. -/
structure Queue where
  topic : PyVal
  producer : PyVal
  serializer : PyVal
  timeout : PyVal
  logger : PyVal
  defaultSpec : EnqueueSpec

/-- `Queue.__init__(topic, producer, serializer=None, timeout=0,
logger=None)`: validates its arguments, fills in the defaults
(`serializer or dill.dumps`, `logger or logging.getLogger('kq.queue')`)
and builds the internal default `EnqueueSpec` with `key=None,
partition=None`. -/
def Queue.init (topic producer : PyVal) (serializer : PyVal := .none)
    (timeout : PyVal := .int 0) (logger : PyVal := .none) :
    Except String Queue :=
  if !is_str topic then .error "topic must be a str"
  else if !(producer matches .pyobj "KafkaProducer") then .error "bad producer instance"
  else if !is_none_or_func serializer then .error "serializer must be a callable"
  else if !is_number timeout then .error "timeout must be an int or float"
  else if !pyGe0 timeout then .error "timeout must be 0 or greater"
  else if !is_none_or_logger logger then .error "bad logger instance"
  else
    let ser := pyOr serializer dillDumps
    let log := pyOr logger defaultLogger
    match EnqueueSpec.init topic producer ser log timeout .none .none with
    | .error e => .error e
    | .ok spec =>
        .ok { topic := topic, producer := producer, serializer := ser,
              timeout := timeout, logger := log, defaultSpec := spec }

/-- `Queue.enqueue(func, *args, **kwargs)`: delegates to the default spec. -/
def Queue.enqueue (q : Queue) (obj : EnqueueArg)
    (args : List PyVal) (kwargs : List (String × PyVal))
    (timestampNow : Int) (freshId : String) :
    Except String (Job × SendCall) :=
  q.defaultSpec.enqueue obj args kwargs timestampNow freshId

/-- `Queue.using(timeout=None, key=None, partition=None)`: builds a new
`EnqueueSpec` sharing topic/producer/serializer/logger with the Queue,
with `timeout or self._timeout` and the given key/partition. -/
def Queue.usingSpec (q : Queue) (timeout : PyVal := .none)
    (key : PyVal := .none) (partition : PyVal := .none) :
    Except String EnqueueSpec :=
  EnqueueSpec.init q.topic q.producer q.serializer q.logger
    (pyOr timeout q.timeout) key partition

/-! ### `kq/utils.py`: `get_call_repr` -/

/-- Which branch of `get_call_repr`'s prefix computation applies to the
callable: `inspectable` covers `ismethod(func) or isfunction(func) or
isbuiltin(func)`, `callableInstance` covers
`not isclass(func) and hasattr(func, '__call__')`, `other` is the
fallback. The branch taken and the introspection attributes
(`__module__`, `__qualname__`, `__class__.__name__`, `repr(func)`) are
runtime-reflection data of the callable, carried here as fields. -/
inductive FuncKind where
  | inspectable
  | callableInstance
  | other

/-- The introspection data of the callable that `get_call_repr`'s
prefix computation reads. -/
structure CallableInfo where
  kind : FuncKind
  module : String
  qualname : String
  className : String
  fallbackRepr : String

/-- The `func_repr` value computed by the branch at the top of
`get_call_repr`. -/
def func_repr_of (f : CallableInfo) : String :=
  match f.kind with
  | .inspectable => f.module ++ "." ++ f.qualname
  | .callableInstance => f.module ++ "." ++ f.className
  | .other => f.fallbackRepr

/-- The comparison that `sorted(kwargs.items())` effectively applies:
Python compares the `(key, value)` tuples lexicographically, and since
the keys of a dict are pairwise distinct the comparison never reaches
the values, so ordering by key alone is exact. -/
def kwKeyLe (p q : String × PyVal) : Prop := p.1 ≤ q.1

instance : DecidableRel kwKeyLe := fun p q =>
  inferInstanceAs (Decidable (p.1 ≤ q.1))

instance : IsTotal (String × PyVal) kwKeyLe :=
  ⟨fun p q => le_total p.1 q.1⟩

instance : IsTrans (String × PyVal) kwKeyLe :=
  ⟨fun _ _ _ h h' => le_trans h h'⟩

/-- `kq.utils.get_call_repr(func, *args, **kwargs)`: renders
`func_repr ++ '(' ++ ', '-joined arg reprs and sorted 'k=v' kwarg
reprs ++ ')'`. `repr`, Python's builtin representation of arbitrary
values, is an external function passed as `r`. -/
def get_call_repr (f : CallableInfo) (r : PyVal → String)
    (args : List PyVal) (kwargs : List (String × PyVal)) : String :=
  let func_repr := func_repr_of f
  let args_reprs := args.map r
  let kwargs_reprs :=
    (List.insertionSort kwKeyLe kwargs).map (fun p => p.1 ++ "=" ++ r p.2)
  func_repr ++ "(" ++ String.intercalate ", " (args_reprs ++ kwargs_reprs) ++ ")"

/-! ### Concrete fixtures used by witnesses and counterexamples -/

/-- A concrete bound spec: `topic='topic'`, timeout 10 s, key `b'\x07'`,
partition 2. -/
def specW : EnqueueSpec :=
  { topic := .str "topic", producer := .pyobj "KafkaProducer",
    serializer := dillDumps, logger := defaultLogger,
    timeout := .int 10, key := .bytes [7], partition := .int 2 }

/-- A concrete Queue owning `specW`-like defaults. -/
def qW : Queue :=
  { topic := .str "topic", producer := .pyobj "KafkaProducer",
    serializer := dillDumps, timeout := .int 10, logger := defaultLogger,
    defaultSpec := specW }

/-- `Job(func=f, timeout=0)`: timeout explicitly zero, all else absent. -/
def jW1 : Job := { func := .func 1, timeout := .int 0 }

/-- The normalized job produced from `jW1` by `specW` at time 5 with
fresh id `'abc'`. -/
def jobW1 : Job :=
  { id := .str "abc", timestamp := .int 5, topic := .str "topic",
    func := .func 1, args := .tuple [], kwargs := .dict [],
    timeout := .int 0, key := .bytes [7], partition := .int 2 }

/-- The transport call produced from `jW1` by `specW` at time 5. -/
def sendW1 : SendCall :=
  { topic := .str "topic", valueSerializedFrom := jobW1,
    keySerializedFrom := some (.bytes [7]), partition := .int 2,
    timestamp_ms := 5 }

/-- `Job(func=f, topic='evil', timestamp=999)`: caller-forged topic and
timestamp. -/
def jW2 : Job := { func := .func 1, topic := .str "evil", timestamp := .int 999 }

/-- The normalized job produced from `jW2` by `specW` at time 5 with
fresh id `'abc'`. -/
def jobW2 : Job :=
  { id := .str "abc", timestamp := .int 5, topic := .str "topic",
    func := .func 1, args := .tuple [], kwargs := .dict [],
    timeout := .int 10, key := .bytes [7], partition := .int 2 }

/-- The transport call produced from `jW2` by `specW` at time 5. -/
def sendW2 : SendCall :=
  { topic := .str "topic", valueSerializedFrom := jobW2,
    keySerializedFrom := some (.bytes [7]), partition := .int 2,
    timestamp_ms := 5 }

/-- The normalized job produced from the raw callable `.func 3` with no
extra arguments by `specW` at time 5 with fresh id `'abc'`. -/
def jobW6 : Job :=
  { id := .str "abc", timestamp := .int 5, topic := .str "topic",
    func := .func 3, args := .tuple [], kwargs := .dict [],
    timeout := .int 10, key := .bytes [7], partition := .int 2 }

/-- The transport call produced from the raw callable `.func 3` by
`specW` at time 5. -/
def sendW6 : SendCall :=
  { topic := .str "topic", valueSerializedFrom := jobW6,
    keySerializedFrom := some (.bytes [7]), partition := .int 2,
    timestamp_ms := 5 }

/-- `Job(func=f, id='')`: an explicitly empty string id. -/
def jW7 : Job := { id := .str "", func := .func 1 }

/-! ### Characterization lemmas for `EnqueueSpec.enqueue` -/

lemma validateAndFinish_ok (spec : EnqueueSpec) (t : Int)
    (job_id func args' kwargs' timeout key partition : PyVal)
    (p : Job × SendCall)
    (h : validateAndFinish spec t job_id func args' kwargs' timeout key
          partition = .ok p) :
    p = finishEnqueue spec t job_id func args' kwargs' timeout key partition ∧
    is_str job_id = true ∧ pyCallable func = true ∧ is_iter args' = true ∧
    is_dict kwargs' = true ∧ is_number timeout = true ∧
    is_none_or_bytes key = true ∧ is_none_or_int partition = true := by
  simp only [validateAndFinish] at h
  repeat' split at h
  any_goals exact Except.noConfusion h
  injection h with h'
  subst h'
  refine ⟨rfl, ?_, ?_, ?_, ?_, ?_, ?_, ?_⟩ <;> simp_all

lemma enqueue_job_ok (spec : EnqueueSpec) (j : Job) (a : List PyVal)
    (k : List (String × PyVal)) (t : Int) (fid : String) (p : Job × SendCall)
    (h : spec.enqueue (.job j) a k t fid = .ok p) :
    p = finishEnqueue spec t (resolveId j fid) j.func (resolveArgs j)
          (resolveKwargs j) (resolveTimeout spec j) (resolveKey spec j)
          (resolvePartition spec j) ∧
    is_str (resolveId j fid) = true ∧
    pyCallable j.func = true ∧
    is_iter (resolveArgs j) = true ∧
    is_dict (resolveKwargs j) = true ∧
    is_number (resolveTimeout spec j) = true ∧
    is_none_or_bytes (resolveKey spec j) = true ∧
    is_none_or_int (resolvePartition spec j) = true := by
  simp only [EnqueueSpec.enqueue] at h
  exact validateAndFinish_ok spec t _ _ _ _ _ _ _ p h

lemma enqueue_raw_ok (spec : EnqueueSpec) (v : PyVal) (a : List PyVal)
    (k : List (String × PyVal)) (t : Int) (fid : String) (p : Job × SendCall)
    (h : spec.enqueue (.raw v) a k t fid = .ok p) :
    p = finishEnqueue spec t (PyVal.str fid) v (PyVal.tuple a) (PyVal.dict k)
          spec.timeout spec.key spec.partition ∧
    pyCallable v = true := by
  simp only [EnqueueSpec.enqueue] at h
  split at h
  · exact Except.noConfusion h
  · injection h with h'
    subst h'
    simp_all

lemma finishEnqueue_job (spec : EnqueueSpec) (t : Int)
    (job_id func args' kwargs' timeout key partition : PyVal) :
    (finishEnqueue spec t job_id func args' kwargs' timeout key partition).1 =
      { id := job_id, timestamp := .int t, topic := spec.topic, func := func,
        args := args', kwargs := kwargs', timeout := timeout, key := key,
        partition := partition } := rfl

lemma finishEnqueue_send (spec : EnqueueSpec) (t : Int)
    (job_id func args' kwargs' timeout key partition : PyVal) :
    (finishEnqueue spec t job_id func args' kwargs' timeout key partition).2 =
      { topic := spec.topic,
        valueSerializedFrom :=
          (finishEnqueue spec t job_id func args' kwargs' timeout key partition).1,
        keySerializedFrom := if pyTruthy key then some key else Option.none,
        partition := partition, timestamp_ms := t } := rfl

/-! ### Claims -/

/-- C1: for every enqueue of a Job record through `EnqueueSpec.enqueue`,
each of the fields `timeout`, `key`, `partition` of the normalized Job
carries the input Job's value when that field is set (not `None` — an
explicit `0` counts as set), and the spec-bound value when it is absent. -/
theorem C1_enqueue_field_precedence (spec : EnqueueSpec) (j : Job)
    (a : List PyVal) (k : List (String × PyVal)) (t : Int) (fid : String)
    (job : Job) (send : SendCall)
    (h : spec.enqueue (.job j) a k t fid = .ok (job, send)) :
    (j.timeout.isNone = false → job.timeout = j.timeout) ∧
    (j.timeout.isNone = true → job.timeout = spec.timeout) ∧
    (j.key.isNone = false → job.key = j.key) ∧
    (j.key.isNone = true → job.key = spec.key) ∧
    (j.partition.isNone = false → job.partition = j.partition) ∧
    (j.partition.isNone = true → job.partition = spec.partition) := by
  obtain ⟨hp, -⟩ := enqueue_job_ok spec j a k t fid (job, send) h
  have hjob : job = _ := (congrArg Prod.fst hp).trans (finishEnqueue_job _ _ _ _ _ _ _ _ _)
  refine ⟨?_, ?_, ?_, ?_, ?_, ?_⟩ <;> intro hc <;>
    simp [hjob, resolveTimeout, resolveKey, resolvePartition, hc]

/-- C1 witness: spec-bound `timeout=10, key=b'\x07', partition=2` and an
input Job with only `timeout=0` set (an explicit zero): the normalized
Job has `timeout=0` (the Job's value wins), `key=b'\x07'`, `partition=2`
(the spec-bound values). -/
theorem C1_enqueue_field_precedence_witness :
    jobW1.timeout = PyVal.int 0 ∧ jobW1.key = PyVal.bytes [7] ∧
    jobW1.partition = PyVal.int 2 :=
  have h : specW.enqueue (.job jW1) [] [] 5 "abc" = .ok (jobW1, sendW1) := rfl
  have c := C1_enqueue_field_precedence specW jW1 [] [] 5 "abc" jobW1 sendW1 h
  ⟨c.1 rfl, c.2.2.2.1 rfl, c.2.2.2.2.2 rfl⟩

/-- C2: on every successful enqueue, whatever topic or timestamp the
input carried, the returned Job's `topic` is the spec's bound topic and
its `timestamp` is the time captured at the start of the call, and the
transported job (the value handed to the serializer) is that same Job,
sent on the spec's topic with that same timestamp. -/
theorem C2_topic_timestamp_forced (spec : EnqueueSpec) (obj : EnqueueArg)
    (a : List PyVal) (k : List (String × PyVal)) (t : Int) (fid : String)
    (job : Job) (send : SendCall)
    (h : spec.enqueue obj a k t fid = .ok (job, send)) :
    job.topic = spec.topic ∧ job.timestamp = PyVal.int t ∧
    send.topic = spec.topic ∧ send.timestamp_ms = t ∧
    send.valueSerializedFrom = job := by
  cases obj with
  | job j =>
      obtain ⟨hp, -⟩ := enqueue_job_ok spec j a k t fid (job, send) h
      have hjob : job = _ :=
        (congrArg Prod.fst hp).trans (finishEnqueue_job _ _ _ _ _ _ _ _ _)
      have hsend : send = _ :=
        (congrArg Prod.snd hp).trans (finishEnqueue_send _ _ _ _ _ _ _ _ _)
      rw [← congrArg Prod.fst hp] at hsend
      exact ⟨by rw [hjob], by rw [hjob], by rw [hsend], by rw [hsend], by rw [hsend]⟩
  | raw v =>
      obtain ⟨hp, -⟩ := enqueue_raw_ok spec v a k t fid (job, send) h
      have hjob : job = _ :=
        (congrArg Prod.fst hp).trans (finishEnqueue_job _ _ _ _ _ _ _ _ _)
      have hsend : send = _ :=
        (congrArg Prod.snd hp).trans (finishEnqueue_send _ _ _ _ _ _ _ _ _)
      rw [← congrArg Prod.fst hp] at hsend
      exact ⟨by rw [hjob], by rw [hjob], by rw [hsend], by rw [hsend], by rw [hsend]⟩

/-- C2 witness: an input Job carrying `topic='evil'` and
`timestamp=999` is normalized by `specW` at call time 5 to
`topic='topic'`, `timestamp=5`, on both the returned Job and the
transport call. -/
theorem C2_topic_timestamp_forced_witness :
    jobW2.topic = PyVal.str "topic" ∧ jobW2.timestamp = PyVal.int 5 ∧
    sendW2.topic = PyVal.str "topic" ∧ sendW2.timestamp_ms = 5 :=
  have h : specW.enqueue (.job jW2) [] [] 5 "abc" = .ok (jobW2, sendW2) := rfl
  have c := C2_topic_timestamp_forced specW (.job jW2) [] [] 5 "abc" jobW2 sendW2 h
  ⟨c.1, c.2.1, c.2.2.1, c.2.2.2.1⟩

/-- C6: enqueuing a raw callable with no extra positional or keyword
arguments yields `args=()` and `kwargs={}`; a Job record whose `args`
or `kwargs` are absent yields `args=()` and `kwargs={}`; and after any
successful normalization `args` is a sequence and `kwargs` a mapping,
never absent. -/
theorem C6_args_kwargs_defaults (spec : EnqueueSpec) (obj : EnqueueArg)
    (a : List PyVal) (k : List (String × PyVal)) (t : Int) (fid : String)
    (job : Job) (send : SendCall)
    (h : spec.enqueue obj a k t fid = .ok (job, send)) :
    is_iter job.args = true ∧ is_dict job.kwargs = true ∧
    (match obj with
     | .raw _ =>
        (a = [] → job.args = PyVal.tuple []) ∧
        (k = [] → job.kwargs = PyVal.dict [])
     | .job j =>
        (j.args.isNone = true → job.args = PyVal.tuple []) ∧
        (j.kwargs.isNone = true → job.kwargs = PyVal.dict [])) := by
  cases obj with
  | job j =>
      obtain ⟨hp, -, -, hargs, hkw, -⟩ := enqueue_job_ok spec j a k t fid (job, send) h
      have hjob : job = _ :=
        (congrArg Prod.fst hp).trans (finishEnqueue_job _ _ _ _ _ _ _ _ _)
      refine ⟨by rw [hjob]; exact hargs, by rw [hjob]; exact hkw, ?_, ?_⟩ <;>
        intro hc <;> simp [hjob, resolveArgs, resolveKwargs, hc]
  | raw v =>
      obtain ⟨hp, -⟩ := enqueue_raw_ok spec v a k t fid (job, send) h
      have hjob : job = _ :=
        (congrArg Prod.fst hp).trans (finishEnqueue_job _ _ _ _ _ _ _ _ _)
      refine ⟨by rw [hjob]; rfl, by rw [hjob]; rfl, ?_, ?_⟩ <;>
        intro hc <;> simp [hjob, hc]

/-- C6 witness: the raw callable `.func 3` enqueued through `specW`
with no extra arguments yields `args=()` (a sequence) and `kwargs={}`
(a mapping). -/
theorem C6_args_kwargs_defaults_witness :
    is_iter jobW6.args = true ∧ is_dict jobW6.kwargs = true ∧
    jobW6.args = PyVal.tuple [] ∧ jobW6.kwargs = PyVal.dict [] :=
  have h : specW.enqueue (.raw (.func 3)) [] [] 5 "abc" = .ok (jobW6, sendW6) := rfl
  have c := C6_args_kwargs_defaults specW (.raw (.func 3)) [] [] 5 "abc" jobW6 sendW6 h
  ⟨c.1, c.2.1, c.2.2.1 rfl, c.2.2.2 rfl⟩

/-- C7 counterexample: the claim says every returned Job's `id` is a
non-empty string; but a Job record carrying the explicitly empty id
`''` passes the `is_str` re-validation (`'' is not None`), is enqueued
successfully, and the returned Job's `id` is the empty string. -/
theorem C7_counterexample :
    (specW.enqueue (.job jW7) [] [] 5 "abc").map (fun p => p.1.id) =
      .ok (PyVal.str "") ∧
    String.isEmpty "" = true :=
  ⟨rfl, rfl⟩

/-- C7 amended: every Job returned by a successful enqueue has `id`,
`timestamp` and `topic` populated, never absent: `id` is a string,
equal to the input Job's id when that id was present (and then possibly
empty), and equal to the freshly generated identifier — non-empty, as
`uuid.uuid4().hex` always is — otherwise; `timestamp` is the integer
captured at call time; `topic` is the spec's bound topic. -/
theorem C7_id_timestamp_topic_populated (spec : EnqueueSpec)
    (obj : EnqueueArg) (a : List PyVal) (k : List (String × PyVal))
    (t : Int) (fid : String) (job : Job) (send : SendCall)
    (hfid : fid ≠ "")
    (h : spec.enqueue obj a k t fid = .ok (job, send)) :
    is_str job.id = true ∧ job.timestamp = PyVal.int t ∧
    job.topic = spec.topic ∧
    (match obj with
     | .job j =>
        (j.id.isNone = false → job.id = j.id) ∧
        (j.id.isNone = true → job.id = PyVal.str fid ∧ fid ≠ "")
     | .raw _ => job.id = PyVal.str fid ∧ fid ≠ "") := by
  cases obj with
  | job j =>
      obtain ⟨hp, hid, -⟩ := enqueue_job_ok spec j a k t fid (job, send) h
      have hjob : job = _ :=
        (congrArg Prod.fst hp).trans (finishEnqueue_job _ _ _ _ _ _ _ _ _)
      refine ⟨by rw [hjob]; exact hid, by rw [hjob], by rw [hjob], ?_, ?_⟩ <;>
        intro hc <;> simp [hjob, resolveId, hc, hfid]
  | raw v =>
      obtain ⟨hp, -⟩ := enqueue_raw_ok spec v a k t fid (job, send) h
      have hjob : job = _ :=
        (congrArg Prod.fst hp).trans (finishEnqueue_job _ _ _ _ _ _ _ _ _)
      refine ⟨by rw [hjob]; rfl, by rw [hjob], by rw [hjob], ?_⟩
      show job.id = PyVal.str fid ∧ fid ≠ ""
      exact ⟨by rw [hjob], hfid⟩

/-- C7 amended witness: the raw callable `.func 3` enqueued through
`specW` at time 5 with fresh id `'abc'` yields a Job whose id is the
string `'abc'`, whose timestamp is 5, and whose topic is `'topic'`. -/
theorem C7_id_timestamp_topic_populated_witness :
    is_str jobW6.id = true ∧ jobW6.timestamp = PyVal.int 5 ∧
    jobW6.topic = PyVal.str "topic" ∧ jobW6.id = PyVal.str "abc" :=
  have h : specW.enqueue (.raw (.func 3)) [] [] 5 "abc" = .ok (jobW6, sendW6) := rfl
  have c := C7_id_timestamp_topic_populated specW (.raw (.func 3)) [] [] 5 "abc"
    jobW6 sendW6 (by decide) h
  ⟨c.1, c.2.1, c.2.2.1, c.2.2.2.1⟩

/-- C10: when the first argument of `enqueue` (on the Queue or on an
`EnqueueSpec`) is a Job record, the extra positional and keyword
arguments of the call are completely ignored — the entire outcome is
independent of them — and the normalized Job's `args`/`kwargs` are
taken solely from the Job record, defaulting to empty when absent. -/
theorem C10_job_path_ignores_call_args (spec : EnqueueSpec) (q : Queue)
    (j : Job) (a1 a2 : List PyVal) (k1 k2 : List (String × PyVal))
    (t : Int) (fid : String) :
    spec.enqueue (.job j) a1 k1 t fid = spec.enqueue (.job j) a2 k2 t fid ∧
    q.enqueue (.job j) a1 k1 t fid = q.enqueue (.job j) a2 k2 t fid ∧
    (∀ job send, spec.enqueue (.job j) a1 k1 t fid = .ok (job, send) →
      job.args = (if j.args.isNone then PyVal.tuple [] else j.args) ∧
      job.kwargs = (if j.kwargs.isNone then PyVal.dict [] else j.kwargs)) := by
  refine ⟨rfl, rfl, fun job send h => ?_⟩
  obtain ⟨hp, -⟩ := enqueue_job_ok spec j a1 k1 t fid (job, send) h
  have hjob : job = _ :=
    (congrArg Prod.fst hp).trans (finishEnqueue_job _ _ _ _ _ _ _ _ _)
  exact ⟨by rw [hjob]; rfl, by rw [hjob]; rfl⟩

/-- C10 witness: enqueuing the Job `jW1` with extra call arguments
`(9,)`/`{'z': 1}` produces exactly the same outcome as with no extra
arguments, and the normalized `args`/`kwargs` are the empty tuple and
mapping since `jW1` carries none. -/
theorem C10_job_path_ignores_call_args_witness :
    specW.enqueue (.job jW1) [.int 9] [("z", .int 1)] 5 "abc" =
      specW.enqueue (.job jW1) [] [] 5 "abc" ∧
    jobW1.args = PyVal.tuple [] ∧ jobW1.kwargs = PyVal.dict [] :=
  have c := C10_job_path_ignores_call_args specW qW jW1
    [.int 9] [] [("z", .int 1)] [] 5 "abc"
  have h : specW.enqueue (.job jW1) [.int 9] [("z", .int 1)] 5 "abc" =
      .ok (jobW1, sendW1) := rfl
  have c3 := c.2.2 jobW1 sendW1 h
  ⟨c.1, c3.1, c3.2⟩

/-- C3 counterexample: the claim says `using(timeout=0)` must bind
timeout `0`; but `Queue.using` computes `timeout or self._timeout` and
Python's `or` treats `0` as falsy, so on a Queue with default timeout
10 the returned spec binds 10, not 0. -/
theorem C3_counterexample :
    ((Queue.init (.str "t") (.pyobj "KafkaProducer") .none (.int 10) .none).bind
      (fun q => (q.usingSpec (.int 0) .none .none).map EnqueueSpec.timeout)) =
      .ok (PyVal.int 10) ∧
    PyVal.int 10 ≠ PyVal.int 0 :=
  ⟨rfl, by simp⟩

/-- C3 amended: `Queue.using(timeout=t, key=k, partition=p)` returns an
`EnqueueSpec` binding the Queue's topic, producer, serializer and
logger, `key=k` and `partition=p`, and `timeout=t` whenever `t` is
truthy; an absent `t` — or an explicit falsy `t` such as `0` — falls
back to the Queue's default timeout. The call does not mutate the
Queue (trivial here: the embedding is pure and `using` only reads it). -/
theorem C3_using_bindings (q : Queue) (t k p : PyVal)
    (hn : is_number (pyOr t q.timeout) = true)
    (hk : is_none_or_bytes k = true)
    (hp : is_none_or_int p = true) :
    q.usingSpec t k p =
      .ok { topic := q.topic, producer := q.producer,
            serializer := q.serializer, logger := q.logger,
            timeout := if pyTruthy t then t else q.timeout,
            key := k, partition := p } := by
  simp only [pyOr] at hn
  simp [Queue.usingSpec, EnqueueSpec.init, pyOr, hn, hk, hp]

/-- C3 amended witness: `using(timeout=30)` on a Queue with default 10
binds 30 (a set, truthy value wins), alongside the Queue's other
bound fields. -/
theorem C3_using_bindings_witness :
    qW.usingSpec (.int 30) .none .none =
      .ok { topic := .str "topic", producer := .pyobj "KafkaProducer",
            serializer := dillDumps, logger := defaultLogger,
            timeout := .int 30, key := .none, partition := .none } :=
  (C3_using_bindings qW (.int 30) .none .none rfl rfl rfl).trans rfl

/-- C4 counterexample: the claim says a present empty byte-string key
is transmitted as `serializer(b'')`; but the send uses
`serializer(key) if key else None` and `b''` is falsy, so a spec bound
to `key=b''` enqueues successfully with the normalized Job's key
present (`b''`, not `None`) while the transport call carries no key. -/
theorem C4_counterexample :
    (((EnqueueSpec.init (.str "t") (.pyobj "KafkaProducer") dillDumps
        defaultLogger (.int 0) (.bytes []) .none).bind
      (fun s => s.enqueue (.raw (.func 1)) [] [] 5 "abc")).map
        (fun p => (p.1.key, p.2.keySerializedFrom))) =
      .ok (PyVal.bytes [], Option.none) ∧
    (PyVal.bytes []).isNone = false :=
  ⟨rfl, rfl⟩

/-- C4 amended: at the transport submit, the wire key is the
serializer applied to the normalized key when that key is present and
non-empty; an absent key, or the (falsy) empty byte string, is
submitted with no key. -/
theorem C4_wire_key (spec : EnqueueSpec) (obj : EnqueueArg)
    (a : List PyVal) (k : List (String × PyVal)) (t : Int) (fid : String)
    (job : Job) (send : SendCall)
    (h : spec.enqueue obj a k t fid = .ok (job, send)) :
    (∀ b, job.key = PyVal.bytes b → b ≠ [] →
       send.keySerializedFrom = some (PyVal.bytes b)) ∧
    (job.key.isNone = true → send.keySerializedFrom = Option.none) ∧
    (job.key = PyVal.bytes [] → send.keySerializedFrom = Option.none) := by
  have hkey : send.keySerializedFrom =
      if pyTruthy job.key then some job.key else Option.none := by
    cases obj with
    | job j =>
        obtain ⟨hp, -⟩ := enqueue_job_ok spec j a k t fid (job, send) h
        have hjob : job = _ :=
          (congrArg Prod.fst hp).trans (finishEnqueue_job _ _ _ _ _ _ _ _ _)
        have hsend : send = _ :=
          (congrArg Prod.snd hp).trans (finishEnqueue_send _ _ _ _ _ _ _ _ _)
        rw [hsend, hjob]
    | raw v =>
        obtain ⟨hp, -⟩ := enqueue_raw_ok spec v a k t fid (job, send) h
        have hjob : job = _ :=
          (congrArg Prod.fst hp).trans (finishEnqueue_job _ _ _ _ _ _ _ _ _)
        have hsend : send = _ :=
          (congrArg Prod.snd hp).trans (finishEnqueue_send _ _ _ _ _ _ _ _ _)
        rw [hsend, hjob]
  refine ⟨?_, ?_, ?_⟩
  · intro b hb hne
    rw [hkey, hb]
    simp [pyTruthy, hne]
  · intro hb
    rw [hkey]
    cases hj : job.key <;> simp_all [pyTruthy, PyVal.isNone]
  · intro hb
    rw [hkey, hb]
    simp [pyTruthy]

/-- C4 amended witness: the spec-bound non-empty key `b'\x07'` is
present on the normalized job and is handed to the serializer as the
wire key. -/
theorem C4_wire_key_witness :
    sendW6.keySerializedFrom = some (PyVal.bytes [7]) :=
  have h : specW.enqueue (.raw (.func 3)) [] [] 5 "abc" = .ok (jobW6, sendW6) := rfl
  (C4_wire_key specW (.raw (.func 3)) [] [] 5 "abc" jobW6 sendW6 h).1
    [7] rfl (by decide)

/-- C5: every malformed enqueue input — a non-callable first argument
on the raw path, or a Job whose resolved id is not a string, func not
callable, args not a sequence, kwargs not a mapping, resolved timeout
not numeric, resolved key not absent-or-bytes, or resolved partition
not absent-or-integer — raises a validation error; the raised
computation produces no `SendCall`, so the transport is only invoked
after all checks pass. -/
theorem C5_validation_rejects (spec : EnqueueSpec) (a : List PyVal)
    (k : List (String × PyVal)) (t : Int) (fid : String) :
    (∀ v : PyVal, pyCallable v = false →
       raises (spec.enqueue (.raw v) a k t fid) = true) ∧
    (∀ j : Job,
       (is_str (resolveId j fid) = false ∨
        pyCallable j.func = false ∨
        is_iter (resolveArgs j) = false ∨
        is_dict (resolveKwargs j) = false ∨
        is_number (resolveTimeout spec j) = false ∨
        is_none_or_bytes (resolveKey spec j) = false ∨
        is_none_or_int (resolvePartition spec j) = false) →
       raises (spec.enqueue (.job j) a k t fid) = true) := by
  constructor
  · intro v hv
    simp [EnqueueSpec.enqueue, hv, raises]
  · intro j hbad
    cases hr : spec.enqueue (.job j) a k t fid with
    | error e => rfl
    | ok p =>
        obtain ⟨-, h1, h2, h3, h4, h5, h6, h7⟩ :=
          enqueue_job_ok spec j a k t fid p hr
        rcases hbad with hb | hb | hb | hb | hb | hb | hb <;> simp_all

/-- C5 witness: a non-callable raw first argument (`3`) and a Job with
a non-string id (`5`) are both rejected. -/
theorem C5_validation_rejects_witness :
    raises (specW.enqueue (.raw (.int 3)) [] [] 5 "abc") = true ∧
    raises (specW.enqueue (.job { id := .int 5, func := .func 1 }) [] [] 5 "abc")
      = true :=
  have c := C5_validation_rejects specW [] [] 5 "abc"
  ⟨c.1 (.int 3) rfl, c.2 { id := .int 5, func := .func 1 } (Or.inl rfl)⟩

/-- C8: a Queue constructed with a negative or non-numeric timeout, a
non-string topic, or a serializer neither absent nor callable raises a
validation error, and an EnqueueSpec constructed with a non-numeric
timeout, a key neither absent nor bytes, or a partition neither absent
nor an integer likewise raises; neither constructor can produce a
transport call (no `SendCall` exists in either result type). -/
theorem C8_constructor_validation
    (topic producer serializer timeout logger t2 k2 p2 tp pr sr lg : PyVal) :
    ((is_number timeout = false ∨ pyGe0 timeout = false ∨
      is_str topic = false ∨ is_none_or_func serializer = false) →
      raises (Queue.init topic producer serializer timeout logger) = true) ∧
    ((is_number t2 = false ∨ is_none_or_bytes k2 = false ∨
      is_none_or_int p2 = false) →
      raises (EnqueueSpec.init tp pr sr lg t2 k2 p2) = true) := by
  constructor
  · intro hbad
    cases hr : Queue.init topic producer serializer timeout logger with
    | error e => rfl
    | ok q =>
        simp only [Queue.init] at hr
        repeat' split at hr
        any_goals exact Except.noConfusion hr
        rcases hbad with hb | hb | hb | hb <;> simp_all
  · intro hbad
    cases hr : EnqueueSpec.init tp pr sr lg t2 k2 p2 with
    | error e => rfl
    | ok s =>
        simp only [EnqueueSpec.init] at hr
        repeat' split at hr
        any_goals exact Except.noConfusion hr
        rcases hbad with hb | hb | hb <;> simp_all

/-- C8 witness: `Queue(topic='t', timeout=-1)` is rejected (negative
timeout), and `EnqueueSpec` with the non-bytes key `'k'` is rejected. -/
theorem C8_constructor_validation_witness :
    raises (Queue.init (.str "t") (.pyobj "KafkaProducer") .none (.int (-1)) .none)
      = true ∧
    raises (EnqueueSpec.init (.str "t") (.pyobj "KafkaProducer") dillDumps
      defaultLogger (.int 0) (.str "k") .none) = true :=
  have c := C8_constructor_validation (.str "t") (.pyobj "KafkaProducer") .none
    (.int (-1)) .none (.int 0) (.str "k") .none (.str "t")
    (.pyobj "KafkaProducer") dillDumps defaultLogger
  ⟨c.1 (Or.inr (Or.inl rfl)), c.2 (Or.inr (Or.inl rfl))⟩

/-- C9: `get_call_repr` returns a string of the form
`prefix(renderings)` where the renderings are the positional arguments
in call order followed by the keyword arguments rendered `key=value`
in ascending sorted key order: the rendered keyword list is a
permutation of the input kwargs whose key sequence is sorted.
(Determinism for equal inputs is immediate: the embedding is a pure
function.) -/
theorem C9_get_call_repr_shape (f : CallableInfo) (r : PyVal → String)
    (args : List PyVal) (kwargs : List (String × PyVal)) :
    (List.insertionSort kwKeyLe kwargs).Perm kwargs ∧
    List.Sorted (· ≤ ·) ((List.insertionSort kwKeyLe kwargs).map Prod.fst) ∧
    get_call_repr f r args kwargs =
      func_repr_of f ++ "(" ++
        String.intercalate ", "
          (args.map r ++
           (List.insertionSort kwKeyLe kwargs).map
             (fun p => p.1 ++ "=" ++ r p.2)) ++ ")" := by
  refine ⟨List.perm_insertionSort _ _, ?_, rfl⟩
  have hs := List.sorted_insertionSort kwKeyLe kwargs
  exact List.Pairwise.map Prod.fst (fun _ _ hab => hab) hs
